import Mathlib

/-!
Shallow embedding of the TestHealthTracker booking-conflict and analytics
logic (`src/server/storage.ts`, `src/server/routes.ts`).

Timestamps are modelled as integers, numeric metric observations as
rationals, and the database tables as in-memory lists.  Each definition
mirrors the corresponding source function; the definition whose doc
comment says "per the spec" restates the specification's wording for
comparison against the code's behaviour.
-/

/-- A row of the `bookings` table: environment, team, closed date interval
and a status string drawn from scheduled / active / completed / cancelled. -/
structure Booking where
  id : Int
  environmentId : Int
  teamId : Int
  startDate : Int
  endDate : Int
  status : String
deriving DecidableEq, Repr

/-- The three-case overlap test of `checkBookingConflicts`
(`storage.ts` lines 248-264): the proposed interval `[s, e]` is compared
against an existing booking interval `[bs, be]`.
Case 1: the new booking starts during the existing booking;
case 2: the new booking ends during the existing booking;
case 3: the new booking completely surrounds the existing booking. -/
def codeOverlap (s e bs be : Int) : Bool :=
  (bs ≤ s && s ≤ be) || (bs ≤ e && e ≤ be) || (s ≤ bs && be ≤ e)

/-- Overlap rule per the spec: two closed intervals overlap iff
`a_start <= b_end AND a_end >= b_start`. -/
def specOverlap (s e bs be : Int) : Bool :=
  (s ≤ be) && (bs ≤ e)

/-- `checkBookingConflicts` (`storage.ts` lines 238-268): select from the
bookings table the rows with the given environment id, status
`"scheduled"`, and an interval overlapping the requested period per the
three-case test. -/
def checkBookingConflicts (store : List Booking)
    (environmentId startDate endDate : Int) : List Booking :=
  store.filter (fun b =>
    b.environmentId == environmentId &&
    b.status == "scheduled" &&
    codeOverlap startDate endDate b.startDate b.endDate)

/-- Response of the `POST /api/bookings` handler, after input validation:
either a conflict rejection carrying the conflicting bookings, or the
created booking. -/
inductive BookingResponse where
  | conflictDetected (conflicts : List Booking) : BookingResponse
  | created (b : Booking) : BookingResponse
deriving DecidableEq, Repr

/-- The HTTP status code the handler attaches to each response. -/
def BookingResponse.statusCode : BookingResponse → Nat
  | .conflictDetected _ => 409
  | .created _ => 201

/-- `createBooking` (`storage.ts` lines 270-273): insert the new row into
the bookings table. -/
def createBooking (store : List Booking) (data : Booking) : List Booking :=
  store ++ [data]

/-- The `POST /api/bookings` handler (`routes.ts` lines 176-203) on
validated input: check conflicts, answer 409 with the conflicts if any
exist, otherwise insert the booking and answer 201.  Returns the response
together with the booking table after the request. -/
def postBookingsHandler (store : List Booking) (data : Booking) :
    BookingResponse × List Booking :=
  let conflicts :=
    checkBookingConflicts store data.environmentId data.startDate data.endDate
  if conflicts.length > 0 then
    (BookingResponse.conflictDetected conflicts, store)
  else
    (BookingResponse.created data, createBooking store data)

/-- A row of the `metrics` table: one environment, a timestamp, and five
numeric observations. -/
structure Metric where
  environmentId : Int
  date : Int
  uptime : ℚ
  mttr : ℚ
  mtbf : ℚ
  resourceUtilization : ℚ
  occupancy : ℚ
deriving DecidableEq, Repr

/-- A row of the `dailyStatus` table: one environment, a timestamp, and a
category status string (healthy / issues / down). -/
structure DailyStatus where
  environmentId : Int
  date : Int
  status : String
deriving DecidableEq, Repr

/-- The health analytics summary returned by
`getEnvironmentHealthAnalytics`. -/
structure HealthSummary where
  averageUptime : ℚ
  averageMTTR : ℚ
  averageMTBF : ℚ
  averageResourceUtilization : ℚ
  averageOccupancy : ℚ
deriving DecidableEq, Repr

/-- The green-days analytics summary returned by `getGreenDaysAnalytics`. -/
structure GreenDaysSummary where
  totalDays : Nat
  greenDays : Nat
  yellowDays : Nat
  redDays : Nat
  greenDaysPercentage : ℚ
deriving DecidableEq, Repr

/-- Stable insertion of `a` into `l`, placing `a` before the first element
`b` with `r a b`; used to model the SQL `orderBy` clauses. -/
def insertOrdered (r : α → α → Bool) (a : α) : List α → List α
  | [] => [a]
  | b :: l => if r a b then a :: b :: l else b :: insertOrdered r a l

/-- Insertion sort by the Boolean relation `r`; models `orderBy`. -/
def orderBy (r : α → α → Bool) : List α → List α
  | [] => []
  | a :: l => insertOrdered r a (orderBy r l)

/-- `getMetrics` (`storage.ts` lines 41-65): select from the metrics table,
filtering by environment when `environmentId` is truthy (present and
non-zero) and by the date bounds that are present, ordered by date
descending. -/
def getMetrics (store : List Metric)
    (environmentId : Option Int) (startDate endDate : Option Int) :
    List Metric :=
  let q1 := match environmentId with
    | some env => if env ≠ 0 then store.filter (fun m => m.environmentId == env) else store
    | none => store
  let q2 := match startDate, endDate with
    | some sd, some ed => q1.filter (fun m => sd ≤ m.date && m.date ≤ ed)
    | some sd, none => q1.filter (fun m => sd ≤ m.date)
    | none, some ed => q1.filter (fun m => m.date ≤ ed)
    | none, none => q1
  orderBy (fun a b => b.date ≤ a.date) q2

/-- `getDailyStatus` (`storage.ts` lines 110-134): select from the daily
status table, filtering by truthy environment id and present date bounds,
ordered by date ascending. -/
def getDailyStatus (store : List DailyStatus)
    (environmentId : Option Int) (startDate endDate : Option Int) :
    List DailyStatus :=
  let q1 := match environmentId with
    | some env => if env ≠ 0 then store.filter (fun d => d.environmentId == env) else store
    | none => store
  let q2 := match startDate, endDate with
    | some sd, some ed => q1.filter (fun d => sd ≤ d.date && d.date ≤ ed)
    | some sd, none => q1.filter (fun d => sd ≤ d.date)
    | none, some ed => q1.filter (fun d => d.date ≤ ed)
    | none, none => q1
  orderBy (fun a b => a.date ≤ b.date) q2

/-- The aggregation core of `getEnvironmentHealthAnalytics` (`storage.ts`
lines 370-393): all-zero summary on an empty sequence, otherwise the
`reduce`-computed sum of each field divided by the record count. -/
def summarizeHealth (metricsData : List Metric) : HealthSummary :=
  if metricsData.length = 0 then
    { averageUptime := 0
      averageMTTR := 0
      averageMTBF := 0
      averageResourceUtilization := 0
      averageOccupancy := 0 }
  else
    { averageUptime :=
        metricsData.foldl (fun sum m => sum + m.uptime) 0 / (metricsData.length : ℚ)
      averageMTTR :=
        metricsData.foldl (fun sum m => sum + m.mttr) 0 / (metricsData.length : ℚ)
      averageMTBF :=
        metricsData.foldl (fun sum m => sum + m.mtbf) 0 / (metricsData.length : ℚ)
      averageResourceUtilization :=
        metricsData.foldl (fun sum m => sum + m.resourceUtilization) 0 / (metricsData.length : ℚ)
      averageOccupancy :=
        metricsData.foldl (fun sum m => sum + m.occupancy) 0 / (metricsData.length : ℚ) }

/-- The aggregation core of `getGreenDaysAnalytics` (`storage.ts` lines
404-426): all-zero summary on an empty sequence, otherwise per-status
filter counts and the healthy-day percentage of the total. -/
def summarizeGreenDays (statusData : List DailyStatus) : GreenDaysSummary :=
  if statusData.length = 0 then
    { totalDays := 0, greenDays := 0, yellowDays := 0, redDays := 0,
      greenDaysPercentage := 0 }
  else
    let greenDays := (statusData.filter (fun day => day.status == "healthy")).length
    let yellowDays := (statusData.filter (fun day => day.status == "issues")).length
    let redDays := (statusData.filter (fun day => day.status == "down")).length
    let totalDays := statusData.length
    { totalDays := totalDays, greenDays := greenDays, yellowDays := yellowDays,
      redDays := redDays,
      greenDaysPercentage := (greenDays : ℚ) / (totalDays : ℚ) * 100 }

/-- `getEnvironmentHealthAnalytics` (`storage.ts` lines 362-394): fetch the
filtered metrics and aggregate them. -/
def getEnvironmentHealthAnalytics (store : List Metric)
    (environmentId : Option Int) (startDate endDate : Option Int) :
    HealthSummary :=
  summarizeHealth (getMetrics store environmentId startDate endDate)

/-- `getGreenDaysAnalytics` (`storage.ts` lines 396-427): fetch the filtered
daily statuses and aggregate them. -/
def getGreenDaysAnalytics (store : List DailyStatus)
    (environmentId : Option Int) (startDate endDate : Option Int) :
    GreenDaysSummary :=
  summarizeGreenDays (getDailyStatus store environmentId startDate endDate)

/-- Ten daily status records for one environment, split 8 healthy /
1 issues / 1 down. -/
def greenDaysSample : List DailyStatus :=
  [⟨1, 1, "healthy"⟩, ⟨1, 2, "healthy"⟩, ⟨1, 3, "healthy"⟩, ⟨1, 4, "healthy"⟩,
   ⟨1, 5, "healthy"⟩, ⟨1, 6, "healthy"⟩, ⟨1, 7, "healthy"⟩, ⟨1, 8, "healthy"⟩,
   ⟨1, 9, "issues"⟩, ⟨1, 10, "down"⟩]

/-- On well-formed intervals the code's three-case test agrees with the
spec's single inequality pair. -/
lemma codeOverlap_eq_specOverlap (s e bs be : Int)
    (hse : s ≤ e) (hb : bs ≤ be) :
    codeOverlap s e bs be = specOverlap s e bs be := by
  simp only [codeOverlap, specOverlap]
  rw [Bool.eq_iff_iff]
  simp only [Bool.or_eq_true, Bool.and_eq_true, decide_eq_true_eq]
  omega

/-- C2: for every proposed closed interval `[s, e]` with `s < e` and every
existing closed interval `[bs, be]`, the three-case disjunction implemented
by the code (start falls inside, end falls inside, or the proposed interval
fully contains the existing one) is logically equivalent to the single
inequality pair `s ≤ be ∧ bs ≤ e`. -/
theorem overlap_three_cases_equiv_single_inequality (s e bs be : Int)
    (hse : s < e) (hb : bs ≤ be) :
    codeOverlap s e bs be = specOverlap s e bs be :=
  codeOverlap_eq_specOverlap s e bs be (le_of_lt hse) hb

/-- Witness for C2 at the boundary-touch instance: proposed `[10, 12]`
against existing `[5, 10]`. -/
theorem overlap_equiv_witness :
    (10 : Int) < 12 ∧ (5 : Int) ≤ 10 ∧
      (codeOverlap 10 12 5 10 = specOverlap 10 12 5 10 ∧
        codeOverlap 10 12 5 10 = true) :=
  ⟨by decide, by decide,
    overlap_three_cases_equiv_single_inequality 10 12 5 10 (by decide) (by decide),
    by decide⟩

/-- C1: for every booking store whose rows are well-formed closed intervals
and every proposed interval `[s, e]` with `s < e`, `checkBookingConflicts`
returns exactly the stored bookings with the given environment id, status
`"scheduled"`, and `s ≤ b.endDate ∧ b.startDate ≤ e`; bookings in any
other status are never returned. -/
theorem checkBookingConflicts_exact (store : List Booking) (env s e : Int)
    (hse : s < e) (hwf : ∀ b ∈ store, b.startDate ≤ b.endDate) :
    checkBookingConflicts store env s e =
      store.filter (fun b =>
        b.environmentId == env && b.status == "scheduled" &&
        specOverlap s e b.startDate b.endDate) := by
  simp only [checkBookingConflicts]
  apply List.filter_congr
  intro b hb
  rw [codeOverlap_eq_specOverlap s e b.startDate b.endDate
    (le_of_lt hse) (hwf b hb)]

/-- Witness for C1: a store holding a scheduled booking on `[5, 10]` and a
completed booking on the same interval, probed with the boundary-touching
proposal `[10, 12]`: only the scheduled booking is returned. -/
theorem checkBookingConflicts_exact_witness :
    checkBookingConflicts
        [⟨1, 1, 1, 5, 10, "scheduled"⟩, ⟨2, 1, 1, 5, 10, "completed"⟩]
        1 10 12 =
      List.filter (fun b =>
        b.environmentId == 1 && b.status == "scheduled" &&
        specOverlap 10 12 b.startDate b.endDate)
        [⟨1, 1, 1, 5, 10, "scheduled"⟩, ⟨2, 1, 1, 5, 10, "completed"⟩] ∧
    checkBookingConflicts
        [⟨1, 1, 1, 5, 10, "scheduled"⟩, ⟨2, 1, 1, 5, 10, "completed"⟩]
        1 10 12 = [⟨1, 1, 1, 5, 10, "scheduled"⟩] :=
  ⟨checkBookingConflicts_exact _ 1 10 12 (by decide) (by decide), by decide⟩

/-- C4 counterexample: the claim that a stored scheduled booking is never
contained in the conflict check on its own environment and interval fails:
`checkBookingConflicts` performs no identity-based exclusion, so the
booking `[5, 10]` on environment 1 conflicts with itself. -/
theorem self_conflict_counterexample :
    (⟨1, 1, 1, 5, 10, "scheduled"⟩ : Booking) ∈
      checkBookingConflicts [⟨1, 1, 1, 5, 10, "scheduled"⟩] 1 5 10 := by
  decide

/-- C4 amended: `checkBookingConflicts` excludes nothing by identity — every
stored booking with status `"scheduled"` IS contained in the conflict check
on its own environment and interval.  Self-conflict is avoided in the
creation flow only because the check runs before the booking is inserted. -/
theorem scheduled_booking_conflicts_with_itself (store : List Booking)
    (b : Booking) (hmem : b ∈ store) (hst : b.status = "scheduled") :
    b ∈ checkBookingConflicts store b.environmentId b.startDate b.endDate := by
  refine List.mem_filter.mpr ⟨hmem, ?_⟩
  have h3 : codeOverlap b.startDate b.endDate b.startDate b.endDate = true := by
    simp only [codeOverlap, Bool.or_eq_true, Bool.and_eq_true, decide_eq_true_eq]
    omega
  simp [hst, h3]

/-- Witness for the amended C4 at a concrete two-booking store. -/
theorem scheduled_booking_conflicts_with_itself_witness :
    (⟨2, 3, 1, 7, 9, "scheduled"⟩ : Booking) ∈
      checkBookingConflicts
        [⟨1, 3, 1, 2, 4, "cancelled"⟩, ⟨2, 3, 1, 7, 9, "scheduled"⟩] 3 7 9 :=
  scheduled_booking_conflicts_with_itself
    [⟨1, 3, 1, 2, 4, "cancelled"⟩, ⟨2, 3, 1, 7, 9, "scheduled"⟩]
    ⟨2, 3, 1, 7, 9, "scheduled"⟩ (by decide) rfl

/-- C3: the `POST /api/bookings` handler on validated input rejects with a
409 response carrying exactly the conflicting bookings and leaves the store
unchanged whenever `checkBookingConflicts` is non-empty, and creates the
booking (201, store extended by it) whenever it is empty. -/
theorem postBookings_conflict_gate (store : List Booking) (data : Booking) :
    (checkBookingConflicts store data.environmentId data.startDate data.endDate ≠ [] →
      postBookingsHandler store data =
        (BookingResponse.conflictDetected
          (checkBookingConflicts store data.environmentId data.startDate data.endDate),
         store) ∧
      (postBookingsHandler store data).1.statusCode = 409) ∧
    (checkBookingConflicts store data.environmentId data.startDate data.endDate = [] →
      postBookingsHandler store data =
        (BookingResponse.created data, store ++ [data]) ∧
      (postBookingsHandler store data).1.statusCode = 201) := by
  constructor
  · intro h
    have hlen : 0 < (checkBookingConflicts store data.environmentId
        data.startDate data.endDate).length := List.length_pos.mpr h
    have heq : postBookingsHandler store data =
        (BookingResponse.conflictDetected
          (checkBookingConflicts store data.environmentId data.startDate data.endDate),
         store) := by
      unfold postBookingsHandler
      rw [if_pos hlen]
    exact ⟨heq, by rw [heq]; rfl⟩
  · intro h
    have heq : postBookingsHandler store data =
        (BookingResponse.created data, store ++ [data]) := by
      unfold postBookingsHandler
      rw [h]
      rfl
    exact ⟨heq, by rw [heq]; rfl⟩

/-- Witness for C3: with a scheduled booking `[5, 10]` stored, a request for
the overlapping interval `[8, 12]` on the same environment is rejected with
the stored booking as the conflict and the store unchanged. -/
theorem postBookings_conflict_gate_witness :
    postBookingsHandler [⟨1, 1, 1, 5, 10, "scheduled"⟩]
        ⟨2, 1, 2, 8, 12, "scheduled"⟩ =
      (BookingResponse.conflictDetected [⟨1, 1, 1, 5, 10, "scheduled"⟩],
       [⟨1, 1, 1, 5, 10, "scheduled"⟩]) :=
  ((postBookings_conflict_gate [⟨1, 1, 1, 5, 10, "scheduled"⟩]
      ⟨2, 1, 2, 8, 12, "scheduled"⟩).1 (by decide)).1.trans (by decide)

/-- A `reduce`-style left fold of additions equals the initial accumulator
plus the sum of the mapped field. -/
lemma foldl_add_eq_sum {α : Type} (f : α → ℚ) (l : List α) (init : ℚ) :
    l.foldl (fun sum x => sum + f x) init = init + (l.map f).sum := by
  induction l generalizing init with
  | nil => simp
  | cons a l ih =>
    rw [List.foldl_cons, ih, List.map_cons, List.sum_cons]
    ring

/-- C5: on a non-empty metric sequence the health summary is the arithmetic
mean of each of the five numeric fields computed independently: each
average equals the sum of that field over all records divided by the record
count. -/
theorem summarizeHealth_is_mean (l : List Metric) (h : l ≠ []) :
    (summarizeHealth l).averageUptime = (l.map Metric.uptime).sum / (l.length : ℚ) ∧
    (summarizeHealth l).averageMTTR = (l.map Metric.mttr).sum / (l.length : ℚ) ∧
    (summarizeHealth l).averageMTBF = (l.map Metric.mtbf).sum / (l.length : ℚ) ∧
    (summarizeHealth l).averageResourceUtilization =
      (l.map Metric.resourceUtilization).sum / (l.length : ℚ) ∧
    (summarizeHealth l).averageOccupancy =
      (l.map Metric.occupancy).sum / (l.length : ℚ) := by
  simp [summarizeHealth, h, foldl_add_eq_sum]

/-- Witness for C5: three records with uptime values 98, 99, 100 yield
average uptime 99. -/
theorem summarizeHealth_is_mean_witness :
    (summarizeHealth
        [⟨1, 0, 98, 0, 0, 0, 0⟩, ⟨1, 1, 99, 0, 0, 0, 0⟩, ⟨1, 2, 100, 0, 0, 0, 0⟩]).averageUptime
      = 99 := by
  have h := (summarizeHealth_is_mean
    [⟨1, 0, 98, 0, 0, 0, 0⟩, ⟨1, 1, 99, 0, 0, 0, 0⟩, ⟨1, 2, 100, 0, 0, 0, 0⟩]
    (by simp)).1
  rw [h]
  norm_num

/-- C6: on a non-empty daily status sequence the green-days summary counts
each status category (healthy / issues / down), reports the sequence length
as the total, and reports the healthy share as
`greenDays / totalDays * 100`. -/
theorem summarizeGreenDays_counts (l : List DailyStatus) (h : l ≠ []) :
    (summarizeGreenDays l).greenDays = l.countP (fun d => d.status == "healthy") ∧
    (summarizeGreenDays l).yellowDays = l.countP (fun d => d.status == "issues") ∧
    (summarizeGreenDays l).redDays = l.countP (fun d => d.status == "down") ∧
    (summarizeGreenDays l).totalDays = l.length ∧
    (summarizeGreenDays l).greenDaysPercentage =
      (l.countP (fun d => d.status == "healthy") : ℚ) / (l.length : ℚ) * 100 := by
  simp [summarizeGreenDays, h, List.countP_eq_length_filter]

/-- Witness for C6: ten records split 8 healthy / 1 issues / 1 down yield
greenDays 8, totalDays 10, percentage 80. -/
theorem summarizeGreenDays_counts_witness :
    (summarizeGreenDays greenDaysSample).greenDays = 8 ∧
    (summarizeGreenDays greenDaysSample).totalDays = 10 ∧
    (summarizeGreenDays greenDaysSample).greenDaysPercentage = 80 := by
  obtain ⟨h1, -, -, h4, h5⟩ :=
    summarizeGreenDays_counts greenDaysSample (by decide)
  have hc : greenDaysSample.countP (fun d => d.status == "healthy") = 8 := by decide
  have hl : greenDaysSample.length = 10 := by decide
  refine ⟨?_, ?_, ?_⟩
  · rw [h1, hc]
  · rw [h4, hl]
  · rw [h5, hc, hl]
    norm_num

/-- C7: on an empty input sequence both aggregators return the defined
all-zero summary: every average is zero, and every green-days field
including the percentage is zero, the empty case short-circuiting before
any ratio is formed. -/
theorem summarize_empty_all_zero :
    summarizeHealth [] =
      { averageUptime := 0, averageMTTR := 0, averageMTBF := 0,
        averageResourceUtilization := 0, averageOccupancy := 0 } ∧
    summarizeGreenDays [] =
      { totalDays := 0, greenDays := 0, yellowDays := 0, redDays := 0,
        greenDaysPercentage := 0 } :=
  ⟨rfl, rfl⟩

/-- C8: both aggregators are order-independent: permuting the input record
sequence changes neither the health summary nor the green-days summary. -/
theorem summarize_order_independent (l₁ l₂ : List Metric)
    (d₁ d₂ : List DailyStatus) (hm : l₁.Perm l₂) (hd : d₁.Perm d₂) :
    summarizeHealth l₁ = summarizeHealth l₂ ∧
    summarizeGreenDays d₁ = summarizeGreenDays d₂ := by
  constructor
  · by_cases hnil : l₂ = []
    · subst hnil
      rw [hm.eq_nil]
    · have hne1 : l₁ ≠ [] := by
        intro hx
        subst hx
        exact hnil hm.symm.eq_nil
      have hu : (l₁.map Metric.uptime).sum = (l₂.map Metric.uptime).sum :=
        (hm.map _).sum_eq
      have hmt : (l₁.map Metric.mttr).sum = (l₂.map Metric.mttr).sum :=
        (hm.map _).sum_eq
      have hmb : (l₁.map Metric.mtbf).sum = (l₂.map Metric.mtbf).sum :=
        (hm.map _).sum_eq
      have hru : (l₁.map Metric.resourceUtilization).sum =
          (l₂.map Metric.resourceUtilization).sum := (hm.map _).sum_eq
      have hoc : (l₁.map Metric.occupancy).sum = (l₂.map Metric.occupancy).sum :=
        (hm.map _).sum_eq
      simp [summarizeHealth, hne1, hnil, foldl_add_eq_sum, hm.length_eq,
        hu, hmt, hmb, hru, hoc]
  · by_cases hnil : d₂ = []
    · subst hnil
      rw [hd.eq_nil]
    · have hne1 : d₁ ≠ [] := by
        intro hx
        subst hx
        exact hnil hd.symm.eq_nil
      have hg : (d₁.filter (fun day => day.status == "healthy")).length =
          (d₂.filter (fun day => day.status == "healthy")).length :=
        (hd.filter _).length_eq
      have hy : (d₁.filter (fun day => day.status == "issues")).length =
          (d₂.filter (fun day => day.status == "issues")).length :=
        (hd.filter _).length_eq
      have hr : (d₁.filter (fun day => day.status == "down")).length =
          (d₂.filter (fun day => day.status == "down")).length :=
        (hd.filter _).length_eq
      simp [summarizeGreenDays, hne1, hnil, hd.length_eq, hg, hy, hr]

/-- Witness for C8 on a concrete two-element swap of each record type. -/
theorem summarize_order_independent_witness :
    summarizeHealth [⟨1, 0, 98, 1, 2, 3, 4⟩, ⟨1, 1, 100, 5, 6, 7, 8⟩] =
      summarizeHealth [⟨1, 1, 100, 5, 6, 7, 8⟩, ⟨1, 0, 98, 1, 2, 3, 4⟩] ∧
    summarizeGreenDays [⟨1, 1, "healthy"⟩, ⟨1, 2, "down"⟩] =
      summarizeGreenDays [⟨1, 2, "down"⟩, ⟨1, 1, "healthy"⟩] :=
  summarize_order_independent _ _ _ _
    (List.Perm.swap _ _ _) (List.Perm.swap _ _ _)

/-- The three per-status counts of a daily status sequence are bounded by
its length, with equality exactly when every record carries one of the
three recognised statuses. -/
lemma countP_three_statuses (l : List DailyStatus) :
    (l.countP (fun d => d.status == "healthy") +
        l.countP (fun d => d.status == "issues") +
        l.countP (fun d => d.status == "down") ≤ l.length) ∧
    (l.countP (fun d => d.status == "healthy") +
        l.countP (fun d => d.status == "issues") +
        l.countP (fun d => d.status == "down") = l.length ↔
      ∀ d ∈ l, d.status = "healthy" ∨ d.status = "issues" ∨ d.status = "down") := by
  induction l with
  | nil => simp
  | cons a l ih =>
    obtain ⟨ih1, ih2⟩ := ih
    by_cases h1 : a.status = "healthy"
    · have hH : (a :: l).countP (fun d => d.status == "healthy") =
          l.countP (fun d => d.status == "healthy") + 1 :=
        List.countP_cons_of_pos _ _ (by simp [h1])
      have hI : (a :: l).countP (fun d => d.status == "issues") =
          l.countP (fun d => d.status == "issues") :=
        List.countP_cons_of_neg _ _ (by simp [h1])
      have hD : (a :: l).countP (fun d => d.status == "down") =
          l.countP (fun d => d.status == "down") :=
        List.countP_cons_of_neg _ _ (by simp [h1])
      rw [hH, hI, hD, List.length_cons]
      refine ⟨by omega, ?_⟩
      rw [List.forall_mem_cons]
      constructor
      · intro hsum
        exact ⟨Or.inl h1, ih2.mp (by omega)⟩
      · rintro ⟨-, hall⟩
        have hs := ih2.mpr hall
        omega
    · by_cases h2 : a.status = "issues"
      · have hH : (a :: l).countP (fun d => d.status == "healthy") =
            l.countP (fun d => d.status == "healthy") :=
          List.countP_cons_of_neg _ _ (by simp [h2])
        have hI : (a :: l).countP (fun d => d.status == "issues") =
            l.countP (fun d => d.status == "issues") + 1 :=
          List.countP_cons_of_pos _ _ (by simp [h2])
        have hD : (a :: l).countP (fun d => d.status == "down") =
            l.countP (fun d => d.status == "down") :=
          List.countP_cons_of_neg _ _ (by simp [h2])
        rw [hH, hI, hD, List.length_cons]
        refine ⟨by omega, ?_⟩
        rw [List.forall_mem_cons]
        constructor
        · intro hsum
          exact ⟨Or.inr (Or.inl h2), ih2.mp (by omega)⟩
        · rintro ⟨-, hall⟩
          have hs := ih2.mpr hall
          omega
      · by_cases h3 : a.status = "down"
        · have hH : (a :: l).countP (fun d => d.status == "healthy") =
              l.countP (fun d => d.status == "healthy") :=
            List.countP_cons_of_neg _ _ (by simp [h3])
          have hI : (a :: l).countP (fun d => d.status == "issues") =
              l.countP (fun d => d.status == "issues") :=
            List.countP_cons_of_neg _ _ (by simp [h3])
          have hD : (a :: l).countP (fun d => d.status == "down") =
              l.countP (fun d => d.status == "down") + 1 :=
            List.countP_cons_of_pos _ _ (by simp [h3])
          rw [hH, hI, hD, List.length_cons]
          refine ⟨by omega, ?_⟩
          rw [List.forall_mem_cons]
          constructor
          · intro hsum
            exact ⟨Or.inr (Or.inr h3), ih2.mp (by omega)⟩
          · rintro ⟨-, hall⟩
            have hs := ih2.mpr hall
            omega
        · have hH : (a :: l).countP (fun d => d.status == "healthy") =
              l.countP (fun d => d.status == "healthy") :=
            List.countP_cons_of_neg _ _ (by simp [h1])
          have hI : (a :: l).countP (fun d => d.status == "issues") =
              l.countP (fun d => d.status == "issues") :=
            List.countP_cons_of_neg _ _ (by simp [h2])
          have hD : (a :: l).countP (fun d => d.status == "down") =
              l.countP (fun d => d.status == "down") :=
            List.countP_cons_of_neg _ _ (by simp [h3])
          rw [hH, hI, hD, List.length_cons]
          refine ⟨by omega, ?_⟩
          rw [List.forall_mem_cons]
          constructor
          · intro hsum
            exact absurd hsum (by omega)
          · rintro ⟨hPa, -⟩
            rcases hPa with h | h | h <;> contradiction

/-- C9: the three category counts of the green-days summary never exceed the
total, with equality exactly when every record's status is one of healthy /
issues / down; a record with any other status is counted in the total but
in none of the three categories. -/
theorem greenDays_category_partition (l : List DailyStatus) :
    ((summarizeGreenDays l).greenDays + (summarizeGreenDays l).yellowDays +
        (summarizeGreenDays l).redDays ≤ (summarizeGreenDays l).totalDays) ∧
    ((summarizeGreenDays l).greenDays + (summarizeGreenDays l).yellowDays +
        (summarizeGreenDays l).redDays = (summarizeGreenDays l).totalDays ↔
      ∀ d ∈ l, d.status = "healthy" ∨ d.status = "issues" ∨ d.status = "down") := by
  by_cases h : l = []
  · subst h
    simp [summarizeGreenDays]
  · obtain ⟨h1, h2⟩ := countP_three_statuses l
    have hg : (summarizeGreenDays l).greenDays =
        l.countP (fun d => d.status == "healthy") := by
      simp [summarizeGreenDays, h, List.countP_eq_length_filter]
    have hy : (summarizeGreenDays l).yellowDays =
        l.countP (fun d => d.status == "issues") := by
      simp [summarizeGreenDays, h, List.countP_eq_length_filter]
    have hr : (summarizeGreenDays l).redDays =
        l.countP (fun d => d.status == "down") := by
      simp [summarizeGreenDays, h, List.countP_eq_length_filter]
    have ht : (summarizeGreenDays l).totalDays = l.length := by
      simp [summarizeGreenDays, h]
    rw [hg, hy, hr, ht]
    exact ⟨h1, h2⟩

/-- C10: passing environment id 0 to either analytics operation behaves
identically to omitting the environment filter, because the filter is
applied only when the environment id is truthy. -/
theorem analytics_env_zero_same_as_absent (storeM : List Metric)
    (storeD : List DailyStatus) (sd ed : Option Int) :
    getEnvironmentHealthAnalytics storeM (some 0) sd ed =
      getEnvironmentHealthAnalytics storeM none sd ed ∧
    getGreenDaysAnalytics storeD (some 0) sd ed =
      getGreenDaysAnalytics storeD none sd ed := by
  have hm : getMetrics storeM (some 0) sd ed = getMetrics storeM none sd ed := by
    simp [getMetrics]
  have hd : getDailyStatus storeD (some 0) sd ed =
      getDailyStatus storeD none sd ed := by
    simp [getDailyStatus]
  exact ⟨congrArg summarizeHealth hm, congrArg summarizeGreenDays hd⟩
